import Mathlib

/-!
# Verification of the COA request/fulfillment coordination protocol

Shallow embedding of the three source files of the repository:

* `src/contracts/Inference.sol` — the `CoaInference` contract (request
  ledger with model whitelist governance and single-writer fulfillment);
* `src/pkg/monio/index.js` — the MinIO content-store client with its
  bounded retry policy, and the `Tee` JWT attestation verifier;
* `src/index.js` — the client-side correlation/polling engine
  (`callInference`, `waitForInferenceResult`).

Solidity `address` and `bytes32` values are modelled as `Nat` (`0` is the
zero address / zero hash; `bytes32` equality and the zero test are the only
operations the contract performs on them, so this is faithful).  Solidity
`require` failures revert the whole call; reverting calls are modelled by
`Except`: an `Except.error` result carries no state, so a revert has no
side effects by construction.  `uint256` arithmetic is checked in Solidity
0.8 (it reverts on overflow, it never wraps), and the only arithmetic the
contract performs is incrementing the request counter, so `Nat` is a
faithful model.
-/

/-- `struct Call` of `Inference.sol` (lines 12–18). -/
structure Call where
  caller : Nat
  model : String
  promptHash : Nat
  resultHash : Nat
  reportHash : Nat
  deriving Repr, DecidableEq

/-- The zero-initialised `Call` struct that a Solidity mapping returns for a
key that was never written. -/
def zeroCall : Call := { caller := 0, model := "", promptHash := 0, resultHash := 0, reportHash := 0 }

/-- The revert reasons of `CoaInference`, one per `require` string, plus the
`Ownable` owner check. -/
inductive LedgerError where
  /-- "Inference: model unsupported" (spec name: `UnsupportedModel`) -/
  | unsupportedModel
  /-- "Inference: prompt hash is empty" (spec name: `EmptyDigest`) -/
  | emptyDigest
  /-- "Inference: invalid requestId" (spec name: `InvalidId`) -/
  | invalidId
  /-- "Inference: already fulfilled" (spec name: `AlreadyFulfilled`) -/
  | alreadyFulfilled
  /-- "Inference: model already exists" -/
  | modelAlreadyExists
  /-- "Inference: model no exists" (spec name: `UnknownModel`) -/
  | unknownModel
  /-- "Inference: not inference node" -/
  | notInferenceNode
  /-- `Ownable` revert for a non-owner caller of an `onlyOwner` function -/
  | notOwner
  /-- "Inference: inference node can't be empty" -/
  | emptyNode
  deriving Repr, DecidableEq

/-- The events of `CoaInference`. -/
inductive Event where
  | callRequested (requestId : Nat) (caller : Nat) (model : String) (promptHash : Nat)
  | callFinished (requestId : Nat) (resultHash : Nat) (reportHash : Nat)
  | modelAdded (model : String)
  | modelDeled (model : String)
  deriving Repr, DecidableEq

/-- The storage of a deployed `CoaInference` contract: `_requestCounter`,
`_inferenceNode`, the `Ownable` owner, and the three data structures
`calls`, `models`, `modelList`.  The two Solidity mappings are modelled as
total functions returning the zero value for unwritten keys, exactly as a
mapping does. -/
structure InferenceState where
  requestCounter : Nat
  inferenceNode : Nat
  owner : Nat
  calls : Nat → Call
  models : String → Bool
  modelList : List String

/-- `requestCall` (`Inference.sol` lines 132–146): checks the whitelist,
checks the prompt hash, pre-increments the counter, stores the pending
record and emits `CallRequested`. -/
def requestCall (sender : Nat) (model : String) (promptHash : Nat) (s : InferenceState) :
    Except LedgerError (InferenceState × Nat × Event) :=
  if s.models model = false then .error .unsupportedModel
  else if promptHash = 0 then .error .emptyDigest
  else
    let requestId := s.requestCounter + 1
    .ok ({ s with
            requestCounter := requestId,
            calls := fun k => if k = requestId then
                { caller := sender, model := model, promptHash := promptHash,
                  resultHash := 0, reportHash := 0 }
              else s.calls k },
         requestId,
         .callRequested requestId sender model promptHash)

/-- `submitResult` (`Inference.sol` lines 148–164): only the inference
node, only an id in `1.._requestCounter`, only when the stored
`resultHash` is still zero; then both hashes are written and
`CallFinished` is emitted.  Note that the supplied hashes themselves are
not validated. -/
def submitResult (sender : Nat) (requestId : Nat) (resultHash : Nat) (reportHash : Nat)
    (s : InferenceState) : Except LedgerError (InferenceState × Event) :=
  if sender ≠ s.inferenceNode then .error .notInferenceNode
  else if ¬ (0 < requestId ∧ requestId ≤ s.requestCounter) then .error .invalidId
  else
    let c := s.calls requestId
    if c.resultHash ≠ 0 then .error .alreadyFulfilled
    else
      .ok ({ s with
              calls := fun k => if k = requestId then
                  { c with resultHash := resultHash, reportHash := reportHash }
                else s.calls k },
           .callFinished requestId resultHash reportHash)

/-- `addModel` (`Inference.sol` lines 71–76): `onlyOwner`; reverts if the
model is already whitelisted, otherwise whitelists it, appends it to
`modelList` and emits `ModelAdded`. -/
def addModel (sender : Nat) (model : String) (s : InferenceState) :
    Except LedgerError (InferenceState × Event) :=
  if sender ≠ s.owner then .error .notOwner
  else if s.models model then .error .modelAlreadyExists
  else
    .ok ({ s with
            models := fun m => if m = model then true else s.models m,
            modelList := s.modelList ++ [model] },
         .modelAdded model)

/-- The loop body of `addModels` (`Inference.sol` lines 78–86): models
already present are skipped silently, new ones are whitelisted and
appended. -/
def addModelsGo (ms : List String) (s : InferenceState) : InferenceState :=
  ms.foldl (fun st m =>
    if st.models m then st
    else { st with
            models := fun x => if x = m then true else st.models x,
            modelList := st.modelList ++ [m] }) s

/-- `addModels` (`Inference.sol` lines 78–86): `onlyOwner` batch add. -/
def addModels (sender : Nat) (ms : List String) (s : InferenceState) :
    Except LedgerError InferenceState :=
  if sender ≠ s.owner then .error .notOwner
  else .ok (addModelsGo ms s)

/-- The swap-and-pop removal loop of `delModel` (`Inference.sol` lines
93–100): the first list entry equal to the model (`keccak256` of the bytes
of two strings coincide exactly when the strings do) is overwritten with
the last entry and the last entry is popped; if no entry matches, the list
is unchanged. -/
def delFromList (l : List String) (m : String) : List String :=
  match l.findIdx? (fun x => x = m) with
  | none => l
  | some i => (l.set i (l.getD (l.length - 1) "")).dropLast

/-- `delModel` (`Inference.sol` lines 88–103): `onlyOwner`; reverts with
"model no exists" if the model is not whitelisted, otherwise clears the
whitelist flag, swap-removes it from `modelList` and emits `ModelDeled`. -/
def delModel (sender : Nat) (model : String) (s : InferenceState) :
    Except LedgerError (InferenceState × Event) :=
  if sender ≠ s.owner then .error .notOwner
  else if s.models model = false then .error .unknownModel
  else
    .ok ({ s with
            models := fun m => if m = model then false else s.models m,
            modelList := delFromList s.modelList model },
         .modelDeled model)

/-- The loop body of `delModels` (`Inference.sol` lines 105–126). -/
def delModelsGo (ms : List String) (s : InferenceState) : InferenceState :=
  ms.foldl (fun st m =>
    if st.models m then
      { st with
          models := fun x => if x = m then false else st.models x,
          modelList := delFromList st.modelList m }
    else st) s

/-- `delModels` (`Inference.sol` lines 105–126): `onlyOwner` batch remove. -/
def delModels (sender : Nat) (ms : List String) (s : InferenceState) :
    Except LedgerError InferenceState :=
  if sender ≠ s.owner then .error .notOwner
  else .ok (delModelsGo ms s)

/-- `setInferenceNode` (`Inference.sol` lines 63–69): `onlyOwner`, rejects
the zero address. -/
def setInferenceNode (sender : Nat) (node : Nat) (s : InferenceState) :
    Except LedgerError InferenceState :=
  if sender ≠ s.owner then .error .notOwner
  else if node = 0 then .error .emptyNode
  else .ok { s with inferenceNode := node }

/-- `getAllModels` (`Inference.sol` lines 170–172). -/
def getAllModels (s : InferenceState) : List String := s.modelList

/-- The constructor (`Inference.sol` lines 45–55): the deployer becomes the
`Ownable` owner, a zero inference node is rejected, and the initial models
are installed through the `addModels` loop.  All mappings start zeroed and
the request counter starts at `0`. -/
def deploy (deployer : Nat) (node : Nat) (initialModels : List String) :
    Except LedgerError InferenceState :=
  if node = 0 then .error .emptyNode
  else .ok (addModelsGo initialModels
      { requestCounter := 0, inferenceNode := node, owner := deployer,
        calls := fun _ => zeroCall, models := fun _ => false, modelList := [] })

/-- One successful state-changing transaction of the contract. -/
inductive Step : InferenceState → InferenceState → Prop where
  | request {s s' : InferenceState} {sender : Nat} {m : String} {p id : Nat} {ev : Event} :
      requestCall sender m p s = .ok (s', id, ev) → Step s s'
  | fulfill {s s' : InferenceState} {sender id r rp : Nat} {ev : Event} :
      submitResult sender id r rp s = .ok (s', ev) → Step s s'
  | add {s s' : InferenceState} {sender : Nat} {m : String} {ev : Event} :
      addModel sender m s = .ok (s', ev) → Step s s'
  | addBatch {s s' : InferenceState} {sender : Nat} {ms : List String} :
      addModels sender ms s = .ok s' → Step s s'
  | del {s s' : InferenceState} {sender : Nat} {m : String} {ev : Event} :
      delModel sender m s = .ok (s', ev) → Step s s'
  | delBatch {s s' : InferenceState} {sender : Nat} {ms : List String} :
      delModels sender ms s = .ok s' → Step s s'
  | setNode {s s' : InferenceState} {sender node : Nat} :
      setInferenceNode sender node s = .ok s' → Step s s'

/-- States of a deployed contract after any sequence of successful
transactions. -/
inductive Reachable : InferenceState → Prop where
  | init {deployer node : Nat} {ms : List String} {s : InferenceState} :
      deploy deployer node ms = .ok s → Reachable s
  | step {s s' : InferenceState} : Reachable s → Step s s' → Reachable s'

/-- Storage invariant of the contract: every request id outside the
allocated range `1.._requestCounter` still holds the zero struct. -/
def CallsInv (s : InferenceState) : Prop :=
  ∀ k, k = 0 ∨ s.requestCounter < k → s.calls k = zeroCall

example : (deploy 1 2 ["COA"]).isOk = true := by decide

/-- Inversion of a successful `requestCall`: the checks passed, the id is
the pre-incremented counter, the stored record is pending, the event names
the id, the requester and the payload. -/
theorem requestCall_ok_inv {sender : Nat} {m : String} {p : Nat} {s s' : InferenceState}
    {id : Nat} {ev : Event} (h : requestCall sender m p s = .ok (s', id, ev)) :
    s.models m = true ∧ p ≠ 0 ∧ id = s.requestCounter + 1 ∧
    s' = { s with
            requestCounter := s.requestCounter + 1,
            calls := fun k => if k = s.requestCounter + 1 then
                { caller := sender, model := m, promptHash := p,
                  resultHash := 0, reportHash := 0 }
              else s.calls k } ∧
    ev = .callRequested (s.requestCounter + 1) sender m p := by
  simp only [requestCall] at h
  split at h
  · exact absurd h (by simp)
  · split at h
    · exact absurd h (by simp)
    · simp only [Except.ok.injEq, Prod.mk.injEq] at h
      obtain ⟨hs, hid, hev⟩ := h
      refine ⟨by simpa using ‹¬s.models m = false›, ‹p ≠ 0›, hid.symm, hs.symm, hev.symm⟩

/-- Inversion of a successful `submitResult`: the sender is the inference
node, the id is in the allocated range, the record was still pending, and
both hashes are overwritten with the supplied values. -/
theorem submitResult_ok_inv {sender id r rp : Nat} {s s' : InferenceState} {ev : Event}
    (h : submitResult sender id r rp s = .ok (s', ev)) :
    sender = s.inferenceNode ∧ 0 < id ∧ id ≤ s.requestCounter ∧
    (s.calls id).resultHash = 0 ∧
    s' = { s with
            calls := fun k => if k = id then
                { s.calls id with resultHash := r, reportHash := rp }
              else s.calls k } ∧
    ev = .callFinished id r rp := by
  simp only [submitResult] at h
  split at h
  · exact absurd h (by simp)
  · split at h
    · exact absurd h (by simp)
    · split at h
      · exact absurd h (by simp)
      · simp only [Except.ok.injEq, Prod.mk.injEq] at h
        obtain ⟨hs, hev⟩ := h
        have hsender : sender = s.inferenceNode := by
          by_contra hc; exact ‹¬sender ≠ s.inferenceNode› hc
        have hrange : 0 < id ∧ id ≤ s.requestCounter := by
          by_contra hc; exact ‹¬¬(0 < id ∧ id ≤ s.requestCounter)› hc
        have hpending : (s.calls id).resultHash = 0 := by
          by_contra hc; exact ‹¬(s.calls id).resultHash ≠ 0› hc
        exact ⟨hsender, hrange.1, hrange.2, hpending, hs.symm, hev.symm⟩

/-- Inversion of a successful `addModel`. -/
theorem addModel_ok_inv {sender : Nat} {m : String} {s s' : InferenceState} {ev : Event}
    (h : addModel sender m s = .ok (s', ev)) :
    sender = s.owner ∧ s.models m = false ∧
    s' = { s with
            models := fun x => if x = m then true else s.models x,
            modelList := s.modelList ++ [m] } ∧
    ev = .modelAdded m := by
  simp only [addModel] at h
  split at h
  · exact absurd h (by simp)
  · split at h
    · exact absurd h (by simp)
    · simp only [Except.ok.injEq, Prod.mk.injEq] at h
      obtain ⟨hs, hev⟩ := h
      have hsender : sender = s.owner := by
        by_contra hc; exact ‹¬sender ≠ s.owner› hc
      have habs : s.models m = false := by
        simpa using ‹¬s.models m = true›
      exact ⟨hsender, habs, hs.symm, hev.symm⟩

/-- Inversion of a successful `delModel`. -/
theorem delModel_ok_inv {sender : Nat} {m : String} {s s' : InferenceState} {ev : Event}
    (h : delModel sender m s = .ok (s', ev)) :
    sender = s.owner ∧ s.models m = true ∧
    s' = { s with
            models := fun x => if x = m then false else s.models x,
            modelList := delFromList s.modelList m } ∧
    ev = .modelDeled m := by
  simp only [delModel] at h
  split at h
  · exact absurd h (by simp)
  · split at h
    · exact absurd h (by simp)
    · simp only [Except.ok.injEq, Prod.mk.injEq] at h
      obtain ⟨hs, hev⟩ := h
      have hsender : sender = s.owner := by
        by_contra hc; exact ‹¬sender ≠ s.owner› hc
      have hpres : s.models m = true := by
        by_contra hc
        exact absurd (by simpa using hc) ‹¬s.models m = false›
      exact ⟨hsender, hpres, hs.symm, hev.symm⟩

/-- The `addModels` loop touches only the registry fields: request records,
the counter, the node and the owner are untouched. -/
theorem addModelsGo_preserves (ms : List String) (s : InferenceState) :
    (addModelsGo ms s).requestCounter = s.requestCounter ∧
    (addModelsGo ms s).inferenceNode = s.inferenceNode ∧
    (addModelsGo ms s).owner = s.owner ∧
    (addModelsGo ms s).calls = s.calls := by
  induction ms generalizing s with
  | nil => exact ⟨rfl, rfl, rfl, rfl⟩
  | cons m rest ih =>
    simp only [addModelsGo, List.foldl_cons] at *
    split
    · exact ih s
    · exact ih _

/-- The `delModels` loop touches only the registry fields. -/
theorem delModelsGo_preserves (ms : List String) (s : InferenceState) :
    (delModelsGo ms s).requestCounter = s.requestCounter ∧
    (delModelsGo ms s).inferenceNode = s.inferenceNode ∧
    (delModelsGo ms s).owner = s.owner ∧
    (delModelsGo ms s).calls = s.calls := by
  induction ms generalizing s with
  | nil => exact ⟨rfl, rfl, rfl, rfl⟩
  | cons m rest ih =>
    simp only [delModelsGo, List.foldl_cons] at *
    split
    · exact ih _
    · exact ih s

/-- A freshly deployed contract satisfies the storage invariant. -/
theorem callsInv_deploy {d n : Nat} {ms : List String} {s : InferenceState}
    (h : deploy d n ms = .ok s) : CallsInv s := by
  simp only [deploy] at h
  split at h
  · exact absurd h (by simp)
  · simp only [Except.ok.injEq] at h
    intro k _
    rw [← h, (addModelsGo_preserves ms _).2.2.2]

/-- Every successful transaction preserves the storage invariant. -/
theorem callsInv_step {s s' : InferenceState} (inv : CallsInv s) (st : Step s s') :
    CallsInv s' := by
  cases st with
  | request h =>
    obtain ⟨_, _, _, hs, _⟩ := requestCall_ok_inv h
    subst hs
    intro k hk
    simp only at hk ⊢
    have hne : ¬ k = s.requestCounter + 1 := by omega
    rw [if_neg hne]
    exact inv k (by omega)
  | fulfill h =>
    obtain ⟨_, hpos, hle, _, hs, _⟩ := submitResult_ok_inv h
    subst hs
    intro k hk
    dsimp only at hk ⊢
    split
    · exfalso; omega
    · exact inv k hk
  | add h =>
    obtain ⟨_, _, hs, _⟩ := addModel_ok_inv h
    subst hs
    intro k hk
    exact inv k hk
  | addBatch h =>
    simp only [addModels] at h
    split at h
    · exact absurd h (by simp)
    · simp only [Except.ok.injEq] at h
      subst h
      intro k hk
      rw [(addModelsGo_preserves _ _).2.2.2]
      refine inv k ?_
      rwa [(addModelsGo_preserves _ _).1] at hk
  | del h =>
    obtain ⟨_, _, hs, _⟩ := delModel_ok_inv h
    subst hs
    intro k hk
    exact inv k hk
  | delBatch h =>
    simp only [delModels] at h
    split at h
    · exact absurd h (by simp)
    · simp only [Except.ok.injEq] at h
      subst h
      intro k hk
      rw [(delModelsGo_preserves _ _).2.2.2]
      refine inv k ?_
      rwa [(delModelsGo_preserves _ _).1] at hk
  | setNode h =>
    simp only [setInferenceNode] at h
    split at h
    · exact absurd h (by simp)
    · split at h
      · exact absurd h (by simp)
      · simp only [Except.ok.injEq] at h
        subst h
        intro k hk
        exact inv k hk

/-- Every reachable contract state satisfies the storage invariant. -/
theorem reachable_callsInv {s : InferenceState} (h : Reachable s) : CallsInv s := by
  induction h with
  | init hd => exact callsInv_deploy hd
  | step _ st ih => exact callsInv_step ih st

/-- Once a record is fulfilled (`resultHash ≠ 0`), no successful
transaction changes it. -/
theorem step_preserves_fulfilled {s s' : InferenceState} (inv : CallsInv s) (st : Step s s')
    (id : Nat) (hf : (s.calls id).resultHash ≠ 0) : s'.calls id = s.calls id := by
  cases st with
  | request h =>
    obtain ⟨_, _, _, hs, _⟩ := requestCall_ok_inv h
    subst hs
    dsimp only
    split
    · exfalso
      have hz : s.calls id = zeroCall := inv id (Or.inr (by omega))
      rw [hz] at hf
      exact hf rfl
    · rfl
  | fulfill h =>
    obtain ⟨_, hpos, hle, hpend, hs, _⟩ := submitResult_ok_inv h
    subst hs
    dsimp only
    split
    · exfalso
      rename_i heq
      rw [heq] at hf
      exact hf hpend
    · rfl
  | add h =>
    obtain ⟨_, _, hs, _⟩ := addModel_ok_inv h
    subst hs
    rfl
  | addBatch h =>
    simp only [addModels] at h
    split at h
    · exact absurd h (by simp)
    · simp only [Except.ok.injEq] at h
      subst h
      rw [(addModelsGo_preserves _ _).2.2.2]
  | del h =>
    obtain ⟨_, _, hs, _⟩ := delModel_ok_inv h
    subst hs
    rfl
  | delBatch h =>
    simp only [delModels] at h
    split at h
    · exact absurd h (by simp)
    · simp only [Except.ok.injEq] at h
      subst h
      rw [(delModelsGo_preserves _ _).2.2.2]
  | setNode h =>
    simp only [setInferenceNode] at h
    split at h
    · exact absurd h (by simp)
    · split at h
      · exact absurd h (by simp)
      · simp only [Except.ok.injEq] at h
        subst h
        rfl

/-- C1 (amended form): on every reachable state, once a record is
fulfilled (`resultDigest ≠ 0`), a `fulfill` call on its id by the
fulfillment authority fails with `AlreadyFulfilled`, no `fulfill` call by
anyone succeeds on it, and no transaction whatsoever changes the record —
its digests are never overwritten and it never reverts to pending. -/
theorem fulfilled_record_immutable : ∀ s : InferenceState, Reachable s → ∀ id : Nat,
    (s.calls id).resultHash ≠ 0 →
    (∀ r rp : Nat, submitResult s.inferenceNode id r rp s = .error .alreadyFulfilled) ∧
    (∀ sender r rp : Nat, ∀ s1 : InferenceState, ∀ ev : Event,
        submitResult sender id r rp s = .ok (s1, ev) → False) ∧
    (∀ s' : InferenceState, Step s s' → s'.calls id = s.calls id) := by
  intro s hr id hf
  have inv := reachable_callsInv hr
  have hrange : 0 < id ∧ id ≤ s.requestCounter := by
    by_contra hc
    have hz : s.calls id = zeroCall := inv id (by omega)
    rw [hz] at hf
    exact hf rfl
  refine ⟨?_, ?_, ?_⟩
  · intro r rp
    simp only [submitResult]
    rw [if_neg (by simp), if_neg (not_not_intro hrange)]
    rw [if_pos hf]
  · intro sender r rp s1 ev h
    obtain ⟨_, _, _, hpend, _, _⟩ := submitResult_ok_inv h
    exact hf hpend
  · intro s' st
    exact step_preserves_fulfilled inv st id hf

/-- Fallback state used only to make match-based state extraction total. -/
def emptyState : InferenceState :=
  { requestCounter := 0, inferenceNode := 0, owner := 0,
    calls := fun _ => zeroCall, models := fun _ => false, modelList := [] }

/-- The contract deployed by address `1` with inference node `2` and the
single whitelisted model "COA". -/
def baseState : InferenceState :=
  match deploy 1 2 ["COA"] with
  | .ok s => s
  | .error _ => emptyState

/-- `baseState` after `requestCall` from address `3` for model "COA" with
prompt hash `5`: request id `1` is allocated and pending. -/
def reqState : InferenceState :=
  match requestCall 3 "COA" 5 baseState with
  | .ok (s, _, _) => s
  | .error _ => baseState

/-- `reqState` after the inference node fulfills request `1` with result
hash `7` and report hash `9`. -/
def fulState : InferenceState :=
  match submitResult 2 1 7 9 reqState with
  | .ok (s, _) => s
  | .error _ => reqState

theorem reachable_fulState : Reachable fulState := by
  have h0 : deploy 1 2 ["COA"] = .ok baseState := rfl
  have h1 : requestCall 3 "COA" 5 baseState =
      .ok (reqState, 1, .callRequested 1 3 "COA" 5) := rfl
  have h2 : submitResult 2 1 7 9 reqState = .ok (fulState, .callFinished 1 7 9) := rfl
  exact .step (.step (.init h0) (.request h1)) (.fulfill h2)

/-- C1 witness: in the concrete trace deploy → request → fulfill(7,9), a
second `fulfill` on id 1 by the inference node fails with
`AlreadyFulfilled`. -/
theorem fulfilled_record_immutable_witness :
    (fulState.calls 1).resultHash ≠ 0 ∧
    submitResult 2 1 20 30 fulState = .error .alreadyFulfilled := by
  refine ⟨by decide, ?_⟩
  exact (fulfilled_record_immutable fulState reachable_fulState 1 (by decide)).1 20 30

/-- `reqState` after the inference node "fulfills" request `1` with a
ZERO result hash and report hash `7` — the call succeeds because
`submitResult` never validates the supplied hashes. -/
def zeroFulState : InferenceState :=
  match submitResult 2 1 0 7 reqState with
  | .ok (s, _) => s
  | .error _ => reqState

/-- `zeroFulState` after a second, also successful, fulfill of request `1`
with result hash `9` and report hash `11`. -/
def refulState : InferenceState :=
  match submitResult 2 1 9 11 zeroFulState with
  | .ok (s, _) => s
  | .error _ => zeroFulState

/-- C1 counterexample: a first `fulfill` on id 1 succeeds (storing result
digest 0 and report digest 7), yet a second `fulfill` on the same id does
not fail with `AlreadyFulfilled` — it succeeds and overwrites the stored
report digest (7 becomes 11), contradicting the claim that after a first
successful fulfill every subsequent fulfill on the id fails and the stored
digests are never overwritten. -/
theorem fulfill_twice_succeeds_cex :
    submitResult 2 1 0 7 reqState = .ok (zeroFulState, .callFinished 1 0 7) ∧
    submitResult 2 1 9 11 zeroFulState = .ok (refulState, .callFinished 1 9 11) ∧
    (zeroFulState.calls 1).reportHash = 7 ∧
    (refulState.calls 1).reportHash = 11 ∧
    (refulState.calls 1).resultHash = 9 :=
  ⟨rfl, rfl, rfl, rfl, rfl⟩

/-- The post-state of a `submitResult` call (the pre-state if it
reverted). -/
def fulfillState (sender id r rp : Nat) (s : InferenceState) : InferenceState :=
  match submitResult sender id r rp s with
  | .ok (s1, _) => s1
  | .error _ => s

/-- A successful `submitResult` determines the post-state extracted by
`fulfillState`. -/
theorem fulfillState_of_ok {sender id r rp : Nat} {s s1 : InferenceState} {ev : Event}
    (h : submitResult sender id r rp s = .ok (s1, ev)) :
    fulfillState sender id r rp s = s1 := by
  simp only [fulfillState, h]

/-- C4: `submitResult` never validates the supplied digests.  On any state
with an allocated pending id, a fulfill by the inference node with result
digest 0 succeeds and emits `CallFinished`, the record is still pending
afterwards (`resultHash = 0`) with the report digest stored, and a second
fulfill on the same id also succeeds, overwriting the previously stored
report digest. -/
theorem submitResult_no_digest_validation : ∀ s : InferenceState, ∀ id rep1 r2 rep2 : Nat,
    0 < id → id ≤ s.requestCounter → (s.calls id).resultHash = 0 →
    submitResult s.inferenceNode id 0 rep1 s =
      .ok (fulfillState s.inferenceNode id 0 rep1 s, .callFinished id 0 rep1) ∧
    ((fulfillState s.inferenceNode id 0 rep1 s).calls id).resultHash = 0 ∧
    ((fulfillState s.inferenceNode id 0 rep1 s).calls id).reportHash = rep1 ∧
    submitResult s.inferenceNode id r2 rep2 (fulfillState s.inferenceNode id 0 rep1 s) =
      .ok (fulfillState s.inferenceNode id r2 rep2 (fulfillState s.inferenceNode id 0 rep1 s),
           .callFinished id r2 rep2) ∧
    ((fulfillState s.inferenceNode id r2 rep2
        (fulfillState s.inferenceNode id 0 rep1 s)).calls id).resultHash = r2 ∧
    ((fulfillState s.inferenceNode id r2 rep2
        (fulfillState s.inferenceNode id 0 rep1 s)).calls id).reportHash = rep2 := by
  intro s id rep1 r2 rep2 hpos hle hpend
  have h1 : submitResult s.inferenceNode id 0 rep1 s =
      .ok ({ s with calls := fun k => if k = id then
                { s.calls id with resultHash := 0, reportHash := rep1 }
              else s.calls k },
           .callFinished id 0 rep1) := by
    simp only [submitResult]
    rw [if_neg (by simp), if_neg (not_not_intro ⟨hpos, hle⟩), if_neg (by simp [hpend])]
  have hs1 : fulfillState s.inferenceNode id 0 rep1 s =
      { s with calls := fun k => if k = id then
          { s.calls id with resultHash := 0, reportHash := rep1 }
        else s.calls k } := fulfillState_of_ok h1
  have hcall1 : ((fulfillState s.inferenceNode id 0 rep1 s).calls id) =
      { s.calls id with resultHash := 0, reportHash := rep1 } := by
    rw [hs1]; simp
  have h2 : submitResult s.inferenceNode id r2 rep2 (fulfillState s.inferenceNode id 0 rep1 s) =
      .ok ({ fulfillState s.inferenceNode id 0 rep1 s with
              calls := fun k => if k = id then
                  { (fulfillState s.inferenceNode id 0 rep1 s).calls id with
                      resultHash := r2, reportHash := rep2 }
                else (fulfillState s.inferenceNode id 0 rep1 s).calls k },
           .callFinished id r2 rep2) := by
    simp only [submitResult]
    rw [if_neg (by rw [hs1]; simp), if_neg (by rw [hs1]; exact not_not_intro ⟨hpos, hle⟩),
        if_neg (by rw [hcall1]; simp)]
  have hs2 : fulfillState s.inferenceNode id r2 rep2 (fulfillState s.inferenceNode id 0 rep1 s) =
      { fulfillState s.inferenceNode id 0 rep1 s with
          calls := fun k => if k = id then
              { (fulfillState s.inferenceNode id 0 rep1 s).calls id with
                  resultHash := r2, reportHash := rep2 }
            else (fulfillState s.inferenceNode id 0 rep1 s).calls k } := fulfillState_of_ok h2
  refine ⟨by rw [h1, hs1], by rw [hcall1], by rw [hcall1], by rw [h2, hs2], ?_, ?_⟩
  · rw [hs2]; simp
  · rw [hs2]; simp

/-- C4 witness: on the concrete trace deploy → request, fulfilling id 1
with a zero result digest succeeds, leaves the record pending with report
digest 7, and a second fulfill with (9, 11) succeeds and overwrites it. -/
theorem submitResult_no_digest_validation_witness :
    0 < 1 ∧ 1 ≤ reqState.requestCounter ∧ (reqState.calls 1).resultHash = 0 ∧
    submitResult reqState.inferenceNode 1 0 7 reqState =
      .ok (fulfillState reqState.inferenceNode 1 0 7 reqState, .callFinished 1 0 7) ∧
    ((fulfillState reqState.inferenceNode 1 0 7 reqState).calls 1).resultHash = 0 ∧
    ((fulfillState reqState.inferenceNode 1 9 11
        (fulfillState reqState.inferenceNode 1 0 7 reqState)).calls 1).reportHash = 11 := by
  have h := submitResult_no_digest_validation reqState 1 7 9 11
    (by decide) (by decide) (by decide)
  exact ⟨by decide, by decide, by decide, h.1, h.2.1, h.2.2.2.2.2⟩

/-- The transactions a caller can submit to the contract. -/
inductive Op where
  | request (sender : Nat) (model : String) (promptHash : Nat)
  | fulfill (sender id resultHash reportHash : Nat)
  | add (sender : Nat) (model : String)
  | addBatch (sender : Nat) (ms : List String)
  | del (sender : Nat) (model : String)
  | delBatch (sender : Nat) (ms : List String)
  | setNode (sender node : Nat)

/-- Execute one transaction: a reverting transaction leaves the state
unchanged; a successful `requestCall` also reports the allocated id. -/
def execOp (s : InferenceState) : Op → InferenceState × Option Nat
  | .request sender m p =>
    match requestCall sender m p s with
    | .ok (s', id, _) => (s', some id)
    | .error _ => (s, none)
  | .fulfill sender id r rp =>
    match submitResult sender id r rp s with
    | .ok (s', _) => (s', none)
    | .error _ => (s, none)
  | .add sender m =>
    match addModel sender m s with
    | .ok (s', _) => (s', none)
    | .error _ => (s, none)
  | .addBatch sender ms =>
    match addModels sender ms s with
    | .ok s' => (s', none)
    | .error _ => (s, none)
  | .del sender m =>
    match delModel sender m s with
    | .ok (s', _) => (s', none)
    | .error _ => (s, none)
  | .delBatch sender ms =>
    match delModels sender ms s with
    | .ok s' => (s', none)
    | .error _ => (s, none)
  | .setNode sender n =>
    match setInferenceNode sender n s with
    | .ok s' => (s', none)
    | .error _ => (s, none)

/-- Execute a sequence of transactions, collecting the ids allocated by
the successful submissions in order. -/
def runOps (s : InferenceState) : List Op → InferenceState × List Nat
  | [] => (s, [])
  | op :: rest =>
    let r1 := execOp s op
    let r2 := runOps r1.1 rest
    (r2.1, r1.2.toList ++ r2.2)

/-- A transaction either allocates exactly the next id (atomically with
incrementing the counter) or leaves the counter unchanged and allocates
nothing. -/
theorem execOp_counter (s : InferenceState) (op : Op) :
    ((execOp s op).2 = some (s.requestCounter + 1) ∧
      (execOp s op).1.requestCounter = s.requestCounter + 1) ∨
    ((execOp s op).2 = none ∧
      (execOp s op).1.requestCounter = s.requestCounter) := by
  cases op with
  | request sender m p =>
    simp only [execOp]
    cases h : requestCall sender m p s with
    | ok v =>
      obtain ⟨s', id, ev⟩ := v
      obtain ⟨_, _, hid, hs, _⟩ := requestCall_ok_inv h
      subst hid hs
      exact Or.inl ⟨rfl, rfl⟩
    | error e => exact Or.inr ⟨rfl, rfl⟩
  | fulfill sender id r rp =>
    simp only [execOp]
    cases h : submitResult sender id r rp s with
    | ok v =>
      obtain ⟨s', ev⟩ := v
      obtain ⟨_, _, _, _, hs, _⟩ := submitResult_ok_inv h
      subst hs
      exact Or.inr ⟨rfl, rfl⟩
    | error e => exact Or.inr ⟨rfl, rfl⟩
  | add sender m =>
    simp only [execOp]
    cases h : addModel sender m s with
    | ok v =>
      obtain ⟨s', ev⟩ := v
      obtain ⟨_, _, hs, _⟩ := addModel_ok_inv h
      subst hs
      exact Or.inr ⟨rfl, rfl⟩
    | error e => exact Or.inr ⟨rfl, rfl⟩
  | addBatch sender ms =>
    simp only [execOp]
    cases h : addModels sender ms s with
    | ok s' =>
      simp only [addModels] at h
      split at h
      · exact absurd h (by simp)
      · simp only [Except.ok.injEq] at h
        subst h
        exact Or.inr ⟨rfl, (addModelsGo_preserves ms s).1⟩
    | error e => exact Or.inr ⟨rfl, rfl⟩
  | del sender m =>
    simp only [execOp]
    cases h : delModel sender m s with
    | ok v =>
      obtain ⟨s', ev⟩ := v
      obtain ⟨_, _, hs, _⟩ := delModel_ok_inv h
      subst hs
      exact Or.inr ⟨rfl, rfl⟩
    | error e => exact Or.inr ⟨rfl, rfl⟩
  | delBatch sender ms =>
    simp only [execOp]
    cases h : delModels sender ms s with
    | ok s' =>
      simp only [delModels] at h
      split at h
      · exact absurd h (by simp)
      · simp only [Except.ok.injEq] at h
        subst h
        exact Or.inr ⟨rfl, (delModelsGo_preserves ms s).1⟩
    | error e => exact Or.inr ⟨rfl, rfl⟩
  | setNode sender n =>
    simp only [execOp]
    cases h : setInferenceNode sender n s with
    | ok s' =>
      simp only [setInferenceNode] at h
      split at h
      · exact absurd h (by simp)
      · split at h
        · exact absurd h (by simp)
        · simp only [Except.ok.injEq] at h
          subst h
          exact Or.inr ⟨rfl, rfl⟩
    | error e => exact Or.inr ⟨rfl, rfl⟩

/-- C2: for every starting state and every sequence of transactions, the
ids allocated by the successful submissions are exactly the consecutive
range starting right after the current counter — strictly increasing, no
gaps, no repeats, each id assigned atomically with its submission (the
allocation and the counter increment happen in the same transition, so no
two submissions can observe the same id). -/
theorem allocated_ids_consecutive : ∀ s : InferenceState, ∀ ops : List Op,
    (runOps s ops).2 = List.range' (s.requestCounter + 1) (runOps s ops).2.length := by
  intro s ops
  induction ops generalizing s with
  | nil => rfl
  | cons op rest ih =>
    rcases execOp_counter s op with ⟨ha, hc⟩ | ⟨ha, hc⟩
    · simp only [runOps, ha, Option.toList_some, List.singleton_append, List.length_cons,
        List.range'_succ]
      rw [ih (execOp s op).1, hc]
      simp [List.length_range']
    · simp only [runOps, ha, Option.toList_none, List.nil_append]
      rw [ih (execOp s op).1, hc]
      simp [List.length_range']

/-- C3 (amended form): `requestCall` fails with `UnsupportedModel` exactly
when the model is not whitelisted; it fails with `EmptyDigest` exactly
when the model IS whitelisted and the prompt digest is zero (the
whitelist check runs first, so a zero digest under an unsupported model
reports `UnsupportedModel`); otherwise it allocates the next id, stores
the pending record with the caller, model and prompt digest and zero
result/report digests, increments the counter and emits
`CallRequested(id, requester, model, promptHash)`. -/
theorem requestCall_spec : ∀ sender : Nat, ∀ m : String, ∀ p : Nat, ∀ s : InferenceState,
    (requestCall sender m p s = .error .unsupportedModel ↔ s.models m = false) ∧
    (requestCall sender m p s = .error .emptyDigest ↔ (s.models m = true ∧ p = 0)) ∧
    (s.models m = true → p ≠ 0 →
      requestCall sender m p s =
        .ok ({ s with
                requestCounter := s.requestCounter + 1,
                calls := fun k => if k = s.requestCounter + 1 then
                    { caller := sender, model := m, promptHash := p,
                      resultHash := 0, reportHash := 0 }
                  else s.calls k },
             s.requestCounter + 1,
             .callRequested (s.requestCounter + 1) sender m p)) := by
  intro sender m p s
  by_cases hm : s.models m = false
  · refine ⟨by simp [requestCall, hm], by simp [requestCall, hm], ?_⟩
    intro ht
    rw [ht] at hm
    cases hm
  · have hm' : s.models m = true := by simpa using hm
    by_cases hp : p = 0
    · refine ⟨by simp [requestCall, hm', hp], by simp [requestCall, hm', hp], ?_⟩
      intro _ hp'
      exact absurd hp hp'
    · exact ⟨by simp [requestCall, hm', hp], by simp [requestCall, hm', hp],
        fun _ _ => by simp [requestCall, hm', hp]⟩

/-- C3 counterexample: on the deployed state, a call with an unsupported
model AND a zero prompt digest fails with `UnsupportedModel`, not with
`EmptyDigest` — so "fails with `EmptyDigest` exactly when `promptDigest`
is zero" is false (the digest is zero here, yet the reported error is the
model error). -/
theorem requestCall_error_order_cex :
    requestCall 3 "GPT" 0 baseState = .error .unsupportedModel ∧
    requestCall 3 "GPT" 0 baseState ≠ .error .emptyDigest := by
  refine ⟨rfl, fun h => ?_⟩
  exact absurd (Except.error.inj h) (by decide)

/-- C3 witness: the deployed state whitelists "COA", the digest 5 is
non-zero, and the submission succeeds. -/
theorem requestCall_spec_witness :
    baseState.models "COA" = true ∧ (5 : Nat) ≠ 0 ∧
    (requestCall 3 "COA" 5 baseState).isOk = true := by
  refine ⟨by decide, by decide, ?_⟩
  rw [(requestCall_spec 3 "COA" 5 baseState).2.2 (by decide) (by decide)]
  rfl

/-- The post-state of an `addModel` call (the pre-state if it reverted). -/
def addState (sender : Nat) (m : String) (s : InferenceState) : InferenceState :=
  match addModel sender m s with
  | .ok (s', _) => s'
  | .error _ => s

/-- `baseState` after the owner adds the model "GPT". -/
def addedState : InferenceState := addState 1 "GPT" baseState

/-- C5 counterexample: adding an already-present model is NOT an
error-free no-op — the owner adds "GPT" once successfully, and the second
`addModel("GPT")` reverts with "Inference: model already exists" instead
of succeeding silently. -/
theorem addModel_duplicate_reverts_cex :
    addModel 1 "GPT" baseState = .ok (addedState, .modelAdded "GPT") ∧
    addModel 1 "GPT" addedState = .error .modelAlreadyExists :=
  ⟨rfl, rfl⟩

/-- C5 (amended form): adding an already-present model fails with a
"model already exists" error (the revert has no side effects and emits no
event, so a model is never registered twice: after `addModel` twice with
the same fresh name the model appears exactly once in `getAllModels`),
and removing an absent model fails with `UnknownModel` (again a revert,
hence without side effects). -/
theorem model_registry_spec : ∀ s : InferenceState, ∀ m : String,
    (s.models m = true → addModel s.owner m s = .error .modelAlreadyExists) ∧
    (s.models m = false → delModel s.owner m s = .error .unknownModel) ∧
    (s.models m = false → s.modelList.count m = 0 →
      addModel s.owner m s = .ok (addState s.owner m s, .modelAdded m) ∧
      (getAllModels (addState s.owner m s)).count m = 1 ∧
      addModel s.owner m (addState s.owner m s) = .error .modelAlreadyExists) := by
  intro s m
  refine ⟨fun h => by simp [addModel, h], fun h => by simp [delModel, h], ?_⟩
  intro habs hcount
  have h1 : addModel s.owner m s =
      .ok ({ s with
              models := fun x => if x = m then true else s.models x,
              modelList := s.modelList ++ [m] },
           .modelAdded m) := by
    simp [addModel, habs]
  have hs1 : addState s.owner m s =
      { s with
          models := fun x => if x = m then true else s.models x,
          modelList := s.modelList ++ [m] } := by
    simp only [addState, h1]
  refine ⟨by rw [h1, hs1], ?_, ?_⟩
  · rw [hs1]
    simp [getAllModels, List.count_append, hcount]
  · rw [hs1]
    simp [addModel]

/-- C5 witness: on the deployed state, "GPT" is fresh; after adding it
once it is listed exactly once, the duplicate add reverts, and removing
the absent model "LLM" reverts with `UnknownModel`. -/
theorem model_registry_spec_witness :
    baseState.models "GPT" = false ∧ baseState.modelList.count "GPT" = 0 ∧
    (getAllModels (addState 1 "GPT" baseState)).count "GPT" = 1 ∧
    addModel 1 "GPT" (addState 1 "GPT" baseState) = .error .modelAlreadyExists ∧
    delModel 1 "LLM" baseState = .error .unknownModel := by
  have h := model_registry_spec baseState "GPT"
  refine ⟨by decide, by decide, ?_, ?_, ?_⟩
  · exact (h.2.2 (by decide) (by decide)).2.1
  · exact (h.2.2 (by decide) (by decide)).2.2
  · exact (model_registry_spec baseState "LLM").2.1 (by decide)

/-!
## Content Store Client (`src/pkg/monio/index.js`)

The HTTP layer (`_makeRequest`) is the network boundary; it is modelled by
an oracle `net : Nat → Except String String` giving, for each attempt
number (1-based, as in the JS loop), either the response body or the
error message of that attempt.  Time is not modelled: the backoff sleeps
are recorded as the list of delays (in milliseconds) the client waits
between attempts.
-/

/-- The retry loop of `_requestWithRetry` (`monio/index.js` lines
104–125), as a function of the current attempt number and the number of
attempts still allowed (`retries - attempt + 1`).  Returns the final
result, the number of attempts actually made, and the backoff delays
slept between attempts: `min(1000 * 2^(attempt-1), 5000)` milliseconds
after each failed non-final attempt.  With zero allowed attempts the JS
loop body never runs and `throw lastError` throws `undefined`. -/
def retryGo (net : Nat → Except String String) :
    Nat → Nat → Except String String × Nat × List Nat
  | _, 0 => (.error "undefined", 0, [])
  | attempt, remaining + 1 =>
    match net attempt with
    | .ok x => (.ok x, 1, [])
    | .error e =>
      if remaining = 0 then (.error e, 1, [])
      else
        let tail := retryGo net (attempt + 1) remaining
        (tail.1, tail.2.1 + 1, min (1000 * 2 ^ (attempt - 1)) 5000 :: tail.2.2)

/-- `_requestWithRetry` with the configured number of retries (default 3):
attempts start at 1. -/
def requestWithRetry (net : Nat → Except String String) (retries : Nat) :
    Except String String × Nat × List Nat :=
  retryGo net 1 retries

/-- A JavaScript value passed as the payload of `putObject`/`getObject`:
either a string or some non-string value. -/
inductive JSVal where
  | str (s : String)
  | nonstr
  deriving Repr, DecidableEq

/-- `putObject` (`monio/index.js` lines 132–148): an empty or non-string
payload is rejected up front (`!content || typeof content !== 'string'`)
with zero network attempts; otherwise the request runs under the retry
policy and a final failure is rethrown wrapped in "Failed to upload
object: ...". -/
def putObject (net : Nat → Except String String) (retries : Nat) (content : JSVal) :
    Except String String × Nat × List Nat :=
  match content with
  | .nonstr => (.error "Content must be a non-empty string", 0, [])
  | .str c =>
    if c = "" then (.error "Content must be a non-empty string", 0, [])
    else
      match requestWithRetry net retries with
      | (.ok d, n, ds) => (.ok d, n, ds)
      | (.error e, n, ds) => (.error ("Failed to upload object: " ++ e), n, ds)

/-- `getObject` (`monio/index.js` lines 155–170): same precondition check
on the key, same retry policy, failure wrapped in "Failed to get
object: ...". -/
def getObject (net : Nat → Except String String) (retries : Nat) (key : JSVal) :
    Except String String × Nat × List Nat :=
  match key with
  | .nonstr => (.error "Key must be a non-empty string", 0, [])
  | .str k =>
    if k = "" then (.error "Key must be a non-empty string", 0, [])
    else
      match requestWithRetry net retries with
      | (.ok d, n, ds) => (.ok d, n, ds)
      | (.error e, n, ds) => (.error ("Failed to get object: " ++ e), n, ds)

/-- Bounds and backoff shape of the retry loop: at least one and at most
`remaining` attempts are made, the delays slept are exactly
`min(1000 * 2^(a-1), 5000)` for the consecutive attempt numbers `a`
beginning at `attempt`, and if every attempt fails then all `remaining`
attempts are made and the final attempt's error is returned. -/
theorem retryGo_spec (net : Nat → Except String String) :
    ∀ remaining attempt : Nat, 1 ≤ remaining → 1 ≤ attempt →
    1 ≤ (retryGo net attempt remaining).2.1 ∧
    (retryGo net attempt remaining).2.1 ≤ remaining ∧
    (retryGo net attempt remaining).2.2 =
      (List.range ((retryGo net attempt remaining).2.1 - 1)).map
        (fun i => min (1000 * 2 ^ (attempt - 1 + i)) 5000) ∧
    ((∀ a, attempt ≤ a → a < attempt + remaining → ∃ e, net a = .error e) →
      (retryGo net attempt remaining).2.1 = remaining ∧
      ∃ e, net (attempt + remaining - 1) = .error e ∧
        (retryGo net attempt remaining).1 = .error e) := by
  intro remaining
  induction remaining with
  | zero => intro _ h; omega
  | succ rem ih =>
    intro attempt _ hatt
    cases hnet : net attempt with
    | ok x =>
      simp only [retryGo, hnet]
      refine ⟨le_refl 1, by omega, by simp, ?_⟩
      intro hall
      obtain ⟨e, he⟩ := hall attempt (le_refl attempt) (by omega)
      rw [hnet] at he
      cases he
    | error e =>
      by_cases hrem : rem = 0
      · subst hrem
        simp only [retryGo, hnet, if_pos rfl]
        refine ⟨le_refl 1, le_refl 1, by simp, ?_⟩
        intro _
        exact ⟨rfl, e, by simpa using hnet, rfl⟩
      · have hrem1 : 1 ≤ rem := by omega
        obtain ⟨ih1, ih2, ih3, ih4⟩ := ih (attempt + 1) hrem1 (by omega)
        simp only [retryGo, hnet, if_neg hrem]
        refine ⟨by omega, by omega, ?_, ?_⟩
        · rw [ih3]
          have hn : (retryGo net (attempt + 1) rem).2.1 + 1 - 1 =
              ((retryGo net (attempt + 1) rem).2.1 - 1) + 1 := by omega
          rw [hn, List.range_succ_eq_map, List.map_cons, List.map_map]
          have hfun : ((fun i => min (1000 * 2 ^ (attempt + 1 - 1 + i)) 5000) :
                Nat → Nat) =
              ((fun i => min (1000 * 2 ^ (attempt - 1 + i)) 5000) ∘ Nat.succ) := by
            funext i
            simp only [Function.comp, Nat.add_sub_cancel]
            have hx : attempt - 1 + Nat.succ i = attempt + i := by omega
            rw [hx]
          rw [hfun]
          simp
        · intro hall
          have hall' : ∀ a, attempt + 1 ≤ a → a < attempt + 1 + rem → ∃ e, net a = .error e := by
            intro a h1 h2
            exact hall a (by omega) (by omega)
          obtain ⟨hcnt, e', he', hres⟩ := ih4 hall'
          refine ⟨by omega, e', ?_, hres⟩
          have : attempt + (rem + 1) - 1 = attempt + 1 + rem - 1 := by omega
          rw [this]
          exact he'

/-- C10: for every Content Store `put`/`get` call, an empty or non-string
payload is rejected before any network call (zero attempts are made, a
client-side precondition error is returned); otherwise at most `retries`
attempts are made, the delays slept between attempts follow exponential
backoff `min(1000 * 2^i, 5000)` starting at the fixed 1000 ms base and
capped at 5000 ms, and when every attempt fails the final attempt's error
is surfaced as a hard error (wrapped in "Failed to upload object: ..."),
not swallowed. -/
theorem store_retry_policy :
    (∀ net : Nat → Except String String, ∀ retries : Nat,
      putObject net retries .nonstr = (.error "Content must be a non-empty string", 0, []) ∧
      putObject net retries (.str "") = (.error "Content must be a non-empty string", 0, []) ∧
      getObject net retries .nonstr = (.error "Key must be a non-empty string", 0, []) ∧
      getObject net retries (.str "") = (.error "Key must be a non-empty string", 0, [])) ∧
    (∀ net : Nat → Except String String, ∀ retries : Nat, ∀ c : String,
      c ≠ "" → 1 ≤ retries →
      1 ≤ (putObject net retries (.str c)).2.1 ∧
      (putObject net retries (.str c)).2.1 ≤ retries ∧
      (putObject net retries (.str c)).2.2 =
        (List.range ((putObject net retries (.str c)).2.1 - 1)).map
          (fun i => min (1000 * 2 ^ i) 5000) ∧
      ((∀ a, 1 ≤ a → a ≤ retries → ∃ e, net a = .error e) →
        (putObject net retries (.str c)).2.1 = retries ∧
        ∃ e, net retries = .error e ∧
          (putObject net retries (.str c)).1 =
            .error ("Failed to upload object: " ++ e))) := by
  constructor
  · intro net retries
    exact ⟨rfl, rfl, rfl, rfl⟩
  · intro net retries c hc hr
    obtain ⟨h1, h2, h3, h4⟩ := retryGo_spec net retries 1 hr (le_refl 1)
    have hput2 : (putObject net retries (.str c)).2 = (requestWithRetry net retries).2 := by
      simp only [putObject, if_neg hc]
      rcases hq : requestWithRetry net retries with ⟨res, n, ds⟩
      cases res <;> rfl
    have hmapfun : ((fun i => min (1000 * 2 ^ (1 - 1 + i)) 5000) : Nat → Nat) =
        (fun i => min (1000 * 2 ^ i) 5000) := by
      funext i
      simp
    have hrw : (requestWithRetry net retries).2 = (retryGo net 1 retries).2 := rfl
    refine ⟨?_, ?_, ?_, ?_⟩
    · rw [hput2, hrw]
      exact h1
    · rw [hput2, hrw]
      exact h2
    · rw [hput2, hrw]
      rw [show (retryGo net 1 retries).2.2 = _ from h3, hmapfun]
    · intro hall
      have hall' : ∀ a, 1 ≤ a → a < 1 + retries → ∃ e, net a = .error e := by
        intro a ha1 ha2
        exact hall a ha1 (by omega)
      obtain ⟨hcnt, e, he, hres⟩ := h4 hall'
      have hlast : (1 : Nat) + retries - 1 = retries := by omega
      rw [hlast] at he
      refine ⟨by rw [hput2, hrw]; exact hcnt, e, he, ?_⟩
      simp only [putObject, if_neg hc]
      rcases hq : requestWithRetry net retries with ⟨res, n, ds⟩
      have hres' : res = .error e := by
        have : (requestWithRetry net retries).1 = res := by rw [hq]
        rw [← this]
        exact hres
      subst hres'
      rfl

/-- A network oracle on which every attempt fails with "boom". -/
def wNet : Nat → Except String String := fun _ => .error "boom"

/-- C10 witness: with 3 retries against an always-failing network, a put
of "hello" makes exactly 3 attempts, sleeps [1000, 2000] ms between them,
and surfaces the final failure; a non-string payload is rejected with 0
attempts. -/
theorem store_retry_policy_witness :
    (putObject wNet 3 (.str "hello")).2.1 = 3 ∧
    (putObject wNet 3 (.str "hello")).2.2 = [1000, 2000] ∧
    (putObject wNet 3 (.str "hello")).1 = .error "Failed to upload object: boom" ∧
    putObject wNet 3 .nonstr = (.error "Content must be a non-empty string", 0, []) := by
  have h2 := store_retry_policy.2 wNet 3 "hello" (by decide) (by decide)
  have hall : ∀ a, 1 ≤ a → a ≤ 3 → ∃ e, wNet a = .error e :=
    fun a _ _ => ⟨"boom", rfl⟩
  obtain ⟨hcnt, e, he, hres⟩ := h2.2.2.2 hall
  have he' : e = "boom" := (Except.error.inj he).symm
  subst he'
  refine ⟨hcnt, ?_, hres, (store_retry_policy.1 wNet 3).1⟩
  rw [h2.2.2.1, hcnt]
  decide

/-!
## Correlation/Polling Engine (`src/index.js`)

`waitForInferenceResult` polls `getRequestDetails` in a loop.  The ledger
reads are modelled by `ledger : Nat → Call`, the record observed at each
elapsed time (milliseconds since `startTime`); the content store by
`store : Nat → String`, mapping a digest to the downloaded bytes.  Each
iteration reads at the current elapsed time and, if not resolving, sleeps
`checkInterval` ms; the loop guard is `elapsed < maxWaitTime`.  The
recursion carries fuel (the wrapper passes `maxWaitTime + 1`, enough for
any positive interval; `none` means the fuel ran out, which happens only
for `checkInterval = 0`, where the JS loop would spin indefinitely too).
The JS timeout message interpolates `maxWaitTime / 1000`; for the
multiples of 1000 used in the defaults this agrees with `Nat` division. -/

/-- The outcome of `waitForInferenceResult`: either both hashes were
non-zero and the result/report bytes were fetched from the store, or the
loop timed out and threw. -/
inductive PollOutcome where
  | resolved (requestId resultHash reportHash : Nat) (result report : String)
  | timedOut (msg : String)
  deriving Repr, DecidableEq

/-- The polling loop of `waitForInferenceResult` (`src/index.js` lines
319–351). -/
def waitGo (ledger : Nat → Call) (store : Nat → String) (requestId maxWaitTime checkInterval : Nat) :
    Nat → Nat → Option PollOutcome
  | 0, _ => none
  | fuel + 1, elapsed =>
    if elapsed < maxWaitTime then
      let details := ledger elapsed
      if details.resultHash ≠ 0 ∧ details.reportHash ≠ 0 then
        some (.resolved requestId details.resultHash details.reportHash
          (store details.resultHash) (store details.reportHash))
      else
        waitGo ledger store requestId maxWaitTime checkInterval fuel (elapsed + checkInterval)
    else
      some (.timedOut ("Timeout waiting for inference result after " ++
        toString (maxWaitTime / 1000) ++ " seconds"))

/-- `waitForInferenceResult` (`src/index.js` lines 319–351) with its
polling loop started at elapsed time 0. -/
def waitForInferenceResult (ledger : Nat → Call) (store : Nat → String)
    (requestId : Nat) (maxWaitTime : Nat) (checkInterval : Nat) : Option PollOutcome :=
  waitGo ledger store requestId maxWaitTime checkInterval (maxWaitTime + 1) 0

/-- C7: the engine resolves only when BOTH digests are non-zero, and on an
observation with a non-zero result digest but a zero report digest it
keeps polling exactly as for a fully pending record (the iteration
reduces to the next poll after one interval), never resolving partially. -/
theorem poll_requires_both_digests :
    (∀ ledger : Nat → Call, ∀ store : Nat → String,
      ∀ requestId maxWaitTime checkInterval fuel elapsed rid r p : Nat, ∀ res rep : String,
      waitGo ledger store requestId maxWaitTime checkInterval fuel elapsed =
        some (.resolved rid r p res rep) →
      r ≠ 0 ∧ p ≠ 0) ∧
    (∀ ledger : Nat → Call, ∀ store : Nat → String,
      ∀ requestId maxWaitTime checkInterval fuel elapsed : Nat,
      elapsed < maxWaitTime →
      (ledger elapsed).resultHash ≠ 0 →
      (ledger elapsed).reportHash = 0 →
      waitGo ledger store requestId maxWaitTime checkInterval (fuel + 1) elapsed =
        waitGo ledger store requestId maxWaitTime checkInterval fuel (elapsed + checkInterval)) := by
  constructor
  · intro ledger store requestId maxWaitTime checkInterval fuel
    induction fuel with
    | zero =>
      intro elapsed rid r p res rep h
      cases h
    | succ f ih =>
      intro elapsed rid r p res rep h
      simp only [waitGo] at h
      split at h
      · split at h
        · rename_i hboth
          simp only [Option.some.injEq, PollOutcome.resolved.injEq] at h
          obtain ⟨_, hr, hp, _, _⟩ := h
          exact ⟨hr ▸ hboth.1, hp ▸ hboth.2⟩
        · exact ih (elapsed + checkInterval) rid r p res rep h
      · simp only [Option.some.injEq] at h
        cases h
  · intro ledger store requestId maxWaitTime checkInterval fuel elapsed hlt hr hp
    simp only [waitGo, if_pos hlt]
    rw [if_neg]
    intro hboth
    exact hboth.2 hp

/-- A concrete ledger trace for the C7 witness: at elapsed times below
1000 ms the record shows result digest 21 but report digest 0 (the
half-written observation); from 1000 ms on both digests are set. -/
def partialLedger : Nat → Call := fun t =>
  if t < 1000 then { caller := 3, model := "COA", promptHash := 5, resultHash := 21, reportHash := 0 }
  else { caller := 3, model := "COA", promptHash := 5, resultHash := 21, reportHash := 22 }

/-- A concrete store for the polling witnesses. -/
def wStore : Nat → String := fun d => if d = 21 then "result-bytes" else "report-bytes"

/-- C7 witness: on `partialLedger` the observation at time 0 has
`resultHash = 21 ≠ 0` and `reportHash = 0`, and the iteration keeps
polling: the outcome equals the outcome of the next iteration, which then
resolves at 1000 ms with both digests — never a partial resolution. -/
theorem poll_requires_both_digests_witness :
    waitGo partialLedger wStore 1 300000 1000 300001 0 =
      waitGo partialLedger wStore 1 300000 1000 300000 1000 ∧
    (21 : Nat) ≠ 0 ∧ (22 : Nat) ≠ 0 := by
  refine ⟨?_, ?_⟩
  · exact poll_requires_both_digests.2 partialLedger wStore 1 300000 1000 300000 0
      (by decide) (by decide) (by decide)
  · exact poll_requires_both_digests.1 partialLedger wStore 1 300000 1000 300000 1000
      1 21 22 "result-bytes" "report-bytes" (by decide)

/-- Every timeout outcome of the polling loop carries the one fixed
message built from `maxWaitTime / 1000` (the `${maxWaitTime / 1000}`
interpolation of the JS throw). -/
theorem waitGo_timedOut_msg (ledger : Nat → Call) (store : Nat → String)
    (requestId maxWaitTime checkInterval : Nat) :
    ∀ fuel elapsed : Nat, ∀ msg : String,
    waitGo ledger store requestId maxWaitTime checkInterval fuel elapsed =
      some (.timedOut msg) →
    msg = "Timeout waiting for inference result after " ++
      toString (maxWaitTime / 1000) ++ " seconds" := by
  intro fuel
  induction fuel with
  | zero =>
    intro e m h
    cases h
  | succ f ih =>
    intro e m h
    simp only [waitGo] at h
    split at h
    · split at h
      · exact absurd h (by simp)
      · exact ih _ _ h
    · simp only [Option.some.injEq, PollOutcome.timedOut.injEq] at h
      exact h.symm

/-- The polling loop uses the request id only inside a resolved outcome:
a run that times out produces the identical outcome for any other id. -/
theorem waitGo_timedOut_any_id (ledger : Nat → Call) (store : Nat → String)
    (maxWaitTime checkInterval : Nat) :
    ∀ fuel elapsed id id2 : Nat, ∀ msg : String,
    waitGo ledger store id maxWaitTime checkInterval fuel elapsed = some (.timedOut msg) →
    waitGo ledger store id2 maxWaitTime checkInterval fuel elapsed = some (.timedOut msg) := by
  intro fuel
  induction fuel with
  | zero =>
    intro e id id2 m h
    cases h
  | succ f ih =>
    intro e id id2 m h
    simp only [waitGo] at h ⊢
    by_cases h1 : e < maxWaitTime
    · rw [if_pos h1] at h ⊢
      by_cases h2 : (ledger e).resultHash ≠ 0 ∧ (ledger e).reportHash ≠ 0
      · rw [if_pos h2] at h
        exact absurd h (by simp)
      · rw [if_neg h2] at h ⊢
        exact ih _ id id2 m h
    · rw [if_neg h1] at h ⊢
      exact h

/-- On a ledger trace whose observed record never has both digests
non-zero, a positive poll interval drives the loop to the timeout throw
(given fuel exceeding the remaining wait, as the wrapper supplies). -/
theorem waitGo_timeout_of_unfulfilled (ledger : Nat → Call) (store : Nat → String)
    (requestId maxWaitTime checkInterval : Nat)
    (hnf : ∀ t, (ledger t).resultHash = 0 ∨ (ledger t).reportHash = 0)
    (hi : 1 ≤ checkInterval) :
    ∀ fuel elapsed : Nat, maxWaitTime < elapsed + fuel → 1 ≤ fuel →
    waitGo ledger store requestId maxWaitTime checkInterval fuel elapsed =
      some (.timedOut ("Timeout waiting for inference result after " ++
        toString (maxWaitTime / 1000) ++ " seconds")) := by
  intro fuel
  induction fuel with
  | zero =>
    intro e _ h1
    omega
  | succ f ih =>
    intro e hlt _
    simp only [waitGo]
    by_cases hg : e < maxWaitTime
    · rw [if_pos hg, if_neg ?_]
      · exact ih (e + checkInterval) (by omega) (by omega)
      · intro hboth
        rcases hnf e with h0 | h0
        · exact hboth.1 h0
        · exact hboth.2 h0
    · rw [if_neg hg]

/-- C8 (amended form): when polling exceeds the maximum wait, the engine
throws the timeout error, whose message identifies the configured maximum
wait in seconds but NOT the request id — the identical message (and
outcome) is produced for every request id.  The loop performs only reads
(it is a pure function of the ledger/store traces, changing neither), so
polling can be resumed by re-invoking on the same id. -/
theorem timeout_reports_maxwait_not_id :
    (∀ ledger : Nat → Call, ∀ store : Nat → String, ∀ id maxWaitTime checkInterval : Nat,
      ∀ msg : String,
      waitForInferenceResult ledger store id maxWaitTime checkInterval =
        some (.timedOut msg) →
      msg = "Timeout waiting for inference result after " ++
        toString (maxWaitTime / 1000) ++ " seconds" ∧
      ∀ id2 : Nat, waitForInferenceResult ledger store id2 maxWaitTime checkInterval =
        some (.timedOut msg)) ∧
    (∀ ledger : Nat → Call, ∀ store : Nat → String, ∀ id maxWaitTime checkInterval : Nat,
      (∀ t, (ledger t).resultHash = 0 ∨ (ledger t).reportHash = 0) →
      1 ≤ checkInterval →
      waitForInferenceResult ledger store id maxWaitTime checkInterval =
        some (.timedOut ("Timeout waiting for inference result after " ++
          toString (maxWaitTime / 1000) ++ " seconds"))) := by
  constructor
  · intro ledger store id maxWaitTime checkInterval msg h
    refine ⟨waitGo_timedOut_msg ledger store id maxWaitTime checkInterval _ _ _ h, ?_⟩
    intro id2
    exact waitGo_timedOut_any_id ledger store maxWaitTime checkInterval _ _ id id2 msg h
  · intro ledger store id maxWaitTime checkInterval hnf hi
    exact waitGo_timeout_of_unfulfilled ledger store id maxWaitTime checkInterval hnf hi
      (maxWaitTime + 1) 0 (by omega) (by omega)

/-- A ledger trace on which request records stay pending forever. -/
def pendingLedger : Nat → Call := fun _ =>
  { caller := 3, model := "COA", promptHash := 5, resultHash := 0, reportHash := 0 }

/-- C8 counterexample: polling an eternally pending request for at most
3000 ms with a 1000 ms interval throws "Timeout waiting for inference
result after 3 seconds" — the identical message for request ids 7 and 8,
so the error cannot identify the request id, contrary to the claim that
it identifies both the id and the elapsed time. -/
theorem timeout_error_lacks_id_cex :
    waitForInferenceResult pendingLedger wStore 7 3000 1000 =
      some (.timedOut "Timeout waiting for inference result after 3 seconds") ∧
    waitForInferenceResult pendingLedger wStore 8 3000 1000 =
      some (.timedOut "Timeout waiting for inference result after 3 seconds") := by
  constructor <;> decide

/-- C8 witness: the amended theorem applied to a concrete never-fulfilled
run (id 9, 2000 ms max wait, 500 ms interval). -/
theorem timeout_reports_maxwait_not_id_witness :
    waitForInferenceResult pendingLedger wStore 9 2000 500 =
      some (.timedOut "Timeout waiting for inference result after 2 seconds") := by
  exact timeout_reports_maxwait_not_id.2 pendingLedger wStore 9 2000 500
    (fun t => Or.inl rfl) (by decide)

/-- A receipt log entry as seen through
`inferenceContract.interface.parseLog` in `callInference`: `none` models a
log on which `parseLog` throws (caught, treated as no match), `some` a
parsed event with its name and `requestId` argument. -/
structure ParsedLog where
  name : String
  requestId : Nat
  deriving Repr, DecidableEq

/-- The value `callInference` resolves with: the request id extracted from
the `CallRequested` event — `none` when the event was absent — and the
prompt hash `'0x' + objectKey`. -/
structure InferenceCallResult where
  requestId : Option Nat
  promptHash : String
  deriving Repr, DecidableEq

/-- `callInference` (`src/index.js` lines 112–173): checks the model via
the contract view, sends the `requestCall` transaction (modelled by
`sendTx`, whose error is a transaction failure), scans the receipt logs
for the first `CallRequested` event, and resolves with the extracted
request id — `undefined` (here `none`) when no such event is found; no
error is raised in that case. -/
def callInference (modelsView : String → Bool)
    (sendTx : Except String (List (Option ParsedLog))) (objectKey model : String) :
    Except String InferenceCallResult :=
  if modelsView model = false then .error ("Model " ++ model ++ " is not supported")
  else
    match sendTx with
    | .error e => .error e
    | .ok logs =>
      let event := logs.findSome? (fun l => match l with
        | some p => if p.name = "CallRequested" then some p else none
        | none => none)
      .ok { requestId := event.map (fun p => p.requestId), promptHash := "0x" ++ objectKey }

/-- The contract whitelist view used by the engine witnesses. -/
def wModels : String → Bool := fun m => m == "COA"

/-- C9 counterexample: with a successful transaction whose receipt
contains no `CallRequested` event, `callInference` succeeds with
`requestId = none` (JS `undefined`) — it proceeds without a correlation
id instead of reporting a `Failed` protocol-violation condition. -/
theorem missing_event_returns_ok_cex :
    callInference wModels (.ok []) "abcd" "COA" =
      .ok { requestId := none, promptHash := "0xabcd" } := rfl

/-- C9 (amended form): when the transaction succeeds but no receipt log
parses to a `CallRequested` event, `callInference` does NOT fail — it
returns success with `requestId = none` (JS `undefined`), so the caller
proceeds without a correlation id; a transaction failure, by contrast, is
propagated as an error. -/
theorem callInference_missing_event : ∀ modelsView : String → Bool,
    ∀ logs : List (Option ParsedLog), ∀ objectKey model : String,
    modelsView model = true →
    logs.all (fun l => match l with
      | some p => p.name != "CallRequested"
      | none => true) = true →
    callInference modelsView (.ok logs) objectKey model =
      .ok { requestId := none, promptHash := "0x" ++ objectKey } := by
  intro mv logs key model hm hall
  simp only [callInference]
  rw [if_neg (by simp [hm])]
  have hfind : logs.findSome? (fun l => match l with
      | some p => if p.name = "CallRequested" then some p else none
      | none => none) = none := by
    rw [List.findSome?_eq_none_iff]
    intro l hl
    match l with
    | none => rfl
    | some p =>
      have hp := List.all_eq_true.mp hall (some p) hl
      simp only [bne_iff_ne] at hp
      simp [hp]
  rw [hfind]
  rfl

/-- C9 witness: a receipt with an unrelated parsed event and an unparsable
log still yields success with no request id. -/
theorem callInference_missing_event_witness :
    wModels "COA" = true ∧
    callInference wModels (.ok [some { name := "Transfer", requestId := 4 }, none]) "ff" "COA" =
      .ok { requestId := none, promptHash := "0xff" } := by
  refine ⟨by decide, ?_⟩
  exact callInference_missing_event wModels [some { name := "Transfer", requestId := 4 }, none]
    "ff" "COA" (by decide) (by decide)

/-!
## Attestation Verifier (`src/pkg/monio/index.js`, `Tee` section)

`parseAndVerifyJWT(token, jwksUrl)` is embedded with its external effects
as oracle parameters: `decodeHeader`/`decodePayload` model
`JSON.parse(Buffer.from(_, 'base64url'))` on the respective segment,
`fetchRes` models the fetched and JSON-decoded key set (its `.error`
covers an unreachable endpoint, a non-2xx status and a malformed
document), `importJWK` models `jose.importJWK`, and `jwtVerify` models
`jose.jwtVerify(token, key, {algorithms: [alg], currentDate})` — the only
call wrapped by the INNER try/catch.  A JS throw is an `Except.error`;
the outer try/catch of the source catches every one of them and returns
`{signatureValid: false, error: message}` — so the caller never sees an
exception, which `parseAndVerifyJWT` reflects by being total.

`token.split('.')` destructures only the first three segments and checks
them for JS truthiness (missing or empty); extra segments are ignored by
the check.  A `kid`/`alg` that is absent or the empty string is falsy. -/

/-- Helper for `splitDot`: split a character list at every '.', keeping
the accumulated current segment (in reverse). -/
def splitDotAux : List Char → List Char → List String
  | [], acc => [String.mk acc.reverse]
  | c :: rest, acc =>
    if c = '.' then String.mk acc.reverse :: splitDotAux rest []
    else splitDotAux rest (c :: acc)

/-- JS `token.split('.')`: every '.' separates segments, empty segments
included, and the empty string splits to `[""]`. -/
def splitDot (s : String) : List String := splitDotAux s.data []

/-- A key-set entry; only the key identifier is inspected by the source. -/
structure JWK where
  kid : String
  deriving Repr, DecidableEq

/-- The decoded JWT header fields the source reads; `none` models an
absent field (JS `undefined`). -/
structure JWTHeader where
  kid : Option String
  alg : Option String
  deriving Repr, DecidableEq

/-- JS falsiness of an optional string: absent or empty. -/
def jsFalsy : Option String → Bool
  | none => true
  | some s => s == ""

/-- The structured outcome of `parseAndVerifyJWT`:
`verified` = `{header, payload, signatureValid: true}`,
`rejected` = `{header, signatureValid: false, error}` (inner catch),
`parseError` = `{signatureValid: false, error}` (outer catch, no header). -/
inductive VerifyResult where
  | verified (header : JWTHeader) (payload : String)
  | rejected (header : JWTHeader) (reason : String)
  | parseError (reason : String)
  deriving Repr, DecidableEq

/-- `getJWKFromJWKS` (`monio/index.js` lines 261–273): propagate the fetch
failure, otherwise select the entry whose `kid` matches or throw
"JWK with kid ... not found". -/
def getJWKFromJWKS (fetchRes : Except String (List JWK)) (kid : String) :
    Except String JWK :=
  match fetchRes with
  | .error e => .error e
  | .ok keys =>
    match keys.find? (fun k => k.kid == kid) with
    | none => .error ("JWK with kid " ++ kid ++ " not found")
    | some jwk => .ok jwk

/-- The `try` block of `parseAndVerifyJWT` (`monio/index.js` lines
277–315): an `Except.error` is a JS throw escaping the block; the inner
try around `jwtVerify` converts a signature failure into the `rejected`
return value instead of a throw. -/
def parseAndVerifyJWTBody
    (decodeHeader : String → Except String JWTHeader)
    (decodePayload : String → Except String Nat)
    (fetchRes : Except String (List JWK))
    (importJWK : JWK → String → Except String Nat)
    (jwtVerify : Nat → String → String → Nat → Except String String)
    (token : String) : Except String VerifyResult :=
  if (splitDot token).getD 0 "" = "" ∨ (splitDot token).getD 1 "" = "" ∨
      (splitDot token).getD 2 "" = "" then
    .error "Invalid JWT format"
  else
    match decodeHeader ((splitDot token).getD 0 "") with
    | .error e => .error e
    | .ok header =>
      if jsFalsy header.kid || jsFalsy header.alg then
        .error "Missing kid or alg in JWT header"
      else
        match getJWKFromJWKS fetchRes (header.kid.getD "") with
        | .error e => .error e
        | .ok jwk =>
          match importJWK jwk (header.alg.getD "") with
          | .error e => .error e
          | .ok key =>
            match decodePayload ((splitDot token).getD 1 "") with
            | .error e => .error e
            | .ok iat =>
              match jwtVerify key token (header.alg.getD "") iat with
              | .ok payload => .ok (.verified header payload)
              | .error e => .ok (.rejected header e)

/-- `parseAndVerifyJWT` (`monio/index.js` lines 277–323): the outer catch
turns every throw of the body into the structured
`{signatureValid: false, error}` result, so the function is total — no
input produces a hard failure for the caller. -/
def parseAndVerifyJWT
    (decodeHeader : String → Except String JWTHeader)
    (decodePayload : String → Except String Nat)
    (fetchRes : Except String (List JWK))
    (importJWK : JWK → String → Except String Nat)
    (jwtVerify : Nat → String → String → Nat → Except String String)
    (token : String) : VerifyResult :=
  match parseAndVerifyJWTBody decodeHeader decodePayload fetchRes importJWK jwtVerify token with
  | .ok r => r
  | .error e => .parseError e

/-- C6 (amended form): the verifier raises no hard failure on any input —
every failure, malformed tokens and unreachable key-sets included, comes
back as a structured result with `valid = false` and a reason (clause 1
shows every throw of the body is caught and returned).  The
"Invalid JWT format" result is produced whenever any of the FIRST THREE
dot-separated segments is missing or empty (extra segments are not
checked, so a token need not have exactly three segments); the
"Missing kid or alg" result whenever the decoded header's `kid` or `alg`
is absent or empty; and a signature rejection comes back as the header
plus `valid = false` plus the verifier's non-empty reason. -/
theorem parseAndVerifyJWT_outcomes :
    ∀ dH : String → Except String JWTHeader, ∀ dP : String → Except String Nat,
    ∀ f : Except String (List JWK), ∀ iK : JWK → String → Except String Nat,
    ∀ vS : Nat → String → String → Nat → Except String String, ∀ token : String,
    (∀ e : String, parseAndVerifyJWTBody dH dP f iK vS token = .error e →
      parseAndVerifyJWT dH dP f iK vS token = .parseError e) ∧
    ((splitDot token).getD 0 "" = "" ∨ (splitDot token).getD 1 "" = "" ∨
        (splitDot token).getD 2 "" = "" →
      parseAndVerifyJWT dH dP f iK vS token = .parseError "Invalid JWT format") ∧
    (∀ header : JWTHeader,
      ¬((splitDot token).getD 0 "" = "" ∨ (splitDot token).getD 1 "" = "" ∨
          (splitDot token).getD 2 "" = "") →
      dH ((splitDot token).getD 0 "") = .ok header →
      (jsFalsy header.kid || jsFalsy header.alg) = true →
      parseAndVerifyJWT dH dP f iK vS token = .parseError "Missing kid or alg in JWT header") ∧
    (∀ header : JWTHeader, ∀ jwk : JWK, ∀ key iat : Nat, ∀ e : String,
      ¬((splitDot token).getD 0 "" = "" ∨ (splitDot token).getD 1 "" = "" ∨
          (splitDot token).getD 2 "" = "") →
      dH ((splitDot token).getD 0 "") = .ok header →
      (jsFalsy header.kid || jsFalsy header.alg) = false →
      getJWKFromJWKS f (header.kid.getD "") = .ok jwk →
      iK jwk (header.alg.getD "") = .ok key →
      dP ((splitDot token).getD 1 "") = .ok iat →
      vS key token (header.alg.getD "") iat = .error e →
      parseAndVerifyJWT dH dP f iK vS token = .rejected header e) := by
  intro dH dP f iK vS token
  refine ⟨?_, ?_, ?_, ?_⟩
  · intro e h
    simp only [parseAndVerifyJWT, h]
  · intro hcond
    have hb : parseAndVerifyJWTBody dH dP f iK vS token = .error "Invalid JWT format" := by
      simp only [parseAndVerifyJWTBody]
      rw [if_pos hcond]
    simp only [parseAndVerifyJWT, hb]
  · intro header hnc hdh hfalsy
    have hb : parseAndVerifyJWTBody dH dP f iK vS token =
        .error "Missing kid or alg in JWT header" := by
      simp only [parseAndVerifyJWTBody]
      rw [if_neg hnc, hdh]
      dsimp only
      rw [if_pos hfalsy]
    simp only [parseAndVerifyJWT, hb]
  · intro header jwk key iat e hnc hdh hfalsy hjwk hkey hiat hsig
    have hb : parseAndVerifyJWTBody dH dP f iK vS token = .ok (.rejected header e) := by
      simp only [parseAndVerifyJWTBody]
      rw [if_neg hnc, hdh]
      dsimp only
      rw [if_neg (by simp [hfalsy]), hjwk]
      dsimp only
      rw [hkey]
      dsimp only
      rw [hiat]
      dsimp only
      rw [hsig]
    simp only [parseAndVerifyJWT, hb]

/-- Header decoder oracle for the verifier examples: segment "a" decodes
to a header naming key "k1" and algorithm "ES256". -/
def teeDecodeHeader : String → Except String JWTHeader :=
  fun s => if s = "a" then .ok { kid := some "k1", alg := some "ES256" } else .error "bad header"

/-- Payload decoder oracle: every payload carries `iat = 100`. -/
def teeDecodePayload : String → Except String Nat := fun _ => .ok 100

/-- Key-set oracle: the set contains exactly key "k1". -/
def teeFetch : Except String (List JWK) := .ok [{ kid := "k1" }]

/-- Key-import oracle: import always succeeds. -/
def teeImport : JWK → String → Except String Nat := fun _ _ => .ok 0

/-- Signature oracle that rejects every token. -/
def teeVerify : Nat → String → String → Nat → Except String String :=
  fun _ _ _ _ => .error "signature verification failed"

/-- C6 counterexample: the one-segment token "x" does NOT produce a
`MalformedToken` hard failure — the verifier returns the structured
result `{signatureValid: false, error: "Invalid JWT format"}` (the outer
catch swallows the throw); and the FOUR-segment token "a.b.c.d" is not
treated as malformed at all (only the first three segments are checked),
reaching signature verification and coming back as an ordinary rejection
with its header.  Both contradict "fails with a MalformedToken hard
failure exactly when the token does not have exactly three dot-separated
segments". -/
theorem malformed_token_not_raised_cex :
    parseAndVerifyJWT teeDecodeHeader teeDecodePayload teeFetch teeImport teeVerify "x" =
      .parseError "Invalid JWT format" ∧
    parseAndVerifyJWT teeDecodeHeader teeDecodePayload teeFetch teeImport teeVerify "a.b.c.d" =
      .rejected { kid := some "k1", alg := some "ES256" } "signature verification failed" := by
  constructor
  · rfl
  · rfl

/-- C6 witness: the amended theorem applied to the well-formed
three-segment token "a.b.c" whose signature the oracle rejects: the
outcome is the structured rejection carrying the header and the reason. -/
theorem parseAndVerifyJWT_outcomes_witness :
    parseAndVerifyJWT teeDecodeHeader teeDecodePayload teeFetch teeImport teeVerify "a.b.c" =
      .rejected { kid := some "k1", alg := some "ES256" } "signature verification failed" := by
  exact (parseAndVerifyJWT_outcomes teeDecodeHeader teeDecodePayload teeFetch teeImport
      teeVerify "a.b.c").2.2.2
    { kid := some "k1", alg := some "ES256" } { kid := "k1" } 0 100 "signature verification failed"
    (by decide) (by rfl) (by rfl) (by rfl) (by rfl) (by rfl) (by rfl)
